import Mathlib

/-!
Shallow embedding of `Markowitz min risk.py` (mean-variance portfolio
optimizer).  Price data, weight vectors and matrices are lists of rationals
(exact arithmetic standing in for numpy floats); square roots land in `ℝ`.
Row-major matrices: `cov` is a list of rows.  Price tables are column-major
(one list of prices per asset), matching the pandas per-column operations
`pct_change`, `mean`, `cov`.
-/

namespace Markowitz

/-- Embeds `np.dot` on two equal-length vectors (zip semantics on length mismatch). -/
def dot (xs ys : List ℚ) : ℚ :=
  (List.zipWith (· * ·) xs ys).sum

/-- Embeds `np.dot(M, v)` for a row-major matrix. -/
def matVec (M : List (List ℚ)) (v : List ℚ) : List ℚ :=
  M.map (fun row => dot row v)

/-- Embeds `np.dot(w.T, np.dot(cov_matrix, w))`, the quadratic form wᵀΣw. -/
def quadForm (w : List ℚ) (M : List (List ℚ)) : ℚ :=
  dot w (matVec M w)

/-- Embeds `portfolio_volatility(weights, mean_returns, cov_matrix)`:
`np.sqrt(np.dot(weights.T, np.dot(cov_matrix, weights)))`.
The `mean_returns` parameter is accepted but unused, as in the source. -/
noncomputable def portfolio_volatility (weights mean_returns : List ℚ)
    (cov_matrix : List (List ℚ)) : ℝ :=
  Real.sqrt ((quadForm weights cov_matrix : ℚ) : ℝ)

/-- The default value of the `risk_free_rate` parameter of
`neg_sharpe_ratio` in the source (`0.04`). -/
def default_risk_free_rate : ℚ := 4 / 100

/-- Embeds `neg_sharpe_ratio(weights, mean_returns, cov_matrix, risk_free_rate)`:
`portfolio_return = np.dot(weights, mean_returns)`;
`portfolio_volatility = np.sqrt(np.dot(weights.T, np.dot(cov_matrix, weights)))`;
returns `-(portfolio_return - risk_free_rate) / portfolio_volatility`. -/
noncomputable def neg_sharpe_ratio (weights mean_returns : List ℚ)
    (cov_matrix : List (List ℚ)) (risk_free_rate : ℚ) : ℝ :=
  -((((dot weights mean_returns : ℚ) : ℝ) - (risk_free_rate : ℚ))
      / Real.sqrt ((quadForm weights cov_matrix : ℚ) : ℝ))

/-- Positive semi-definiteness of a matrix, as the spec uses the notion. -/
def IsPSD (M : List (List ℚ)) : Prop :=
  ∀ v : List ℚ, 0 ≤ quadForm v M

/-- Embeds `price_data.pct_change().dropna()` for one asset column: the simple
return series `p[t] / p[t-1] - 1`, with the first (undefined) period gone. -/
def pctChange (p : List ℚ) : List ℚ :=
  List.zipWith (fun prev cur => cur / prev - 1) p p.tail

/-- Pandas column `.mean()`: sum divided by length. -/
def listMean (xs : List ℚ) : ℚ :=
  xs.sum / xs.length

/-- Pandas `.cov()` entry for two return columns: sample covariance with
denominator `count - 1` (ddof = 1). -/
def sampleCov (xs ys : List ℚ) : ℚ :=
  (List.zipWith (fun a b => (a - listMean xs) * (b - listMean ys)) xs ys).sum
    / ((xs.length - 1 : ℕ) : ℚ)

/-- Embeds `calculate_returns(price_data)`:
`returns = price_data.pct_change().dropna()`;
`mean_returns = returns.mean() * 365`; `cov_matrix = returns.cov() * 365`. -/
def calculate_returns (price_data : List (List ℚ)) :
    List ℚ × List (List ℚ) :=
  let returns := price_data.map pctChange
  let mean_returns := returns.map (fun c => listMean c * 365)
  let cov_matrix := returns.map (fun ci => returns.map (fun cj => sampleCov ci cj * 365))
  (mean_returns, cov_matrix)

/-- A (volatility-annotated) portfolio sample, the triple the sampler stores
in `results[:, i]`. -/
structure PortfolioPoint where
  expectedReturn : ℚ
  volatility : ℝ
  sharpe : ℝ

/-- One loop iteration of `plot_efficient_frontier`:
`portfolio_return = np.dot(weights, mean_returns)`;
`portfolio_volatility = np.sqrt(np.dot(weights.T, np.dot(cov_matrix, weights)))`;
`sharpe_ratio = portfolio_return / portfolio_volatility`. -/
noncomputable def samplePoint (weights mean_returns : List ℚ)
    (cov_matrix : List (List ℚ)) : PortfolioPoint :=
  { expectedReturn := dot weights mean_returns
    volatility := Real.sqrt ((quadForm weights cov_matrix : ℚ) : ℝ)
    sharpe := ((dot weights mean_returns : ℚ) : ℝ)
      / Real.sqrt ((quadForm weights cov_matrix : ℚ) : ℝ) }

/-- The hardcoded `num_portfolios = 10_000` of `plot_efficient_frontier`. -/
def num_portfolios : ℕ := 10000

/-- The sampling loop of `plot_efficient_frontier`: iteration `i` draws
`weights = np.random.dirichlet(np.ones(num_assets))` from the implicit global
numpy generator — modelled here as a draw stream `draws` consumed from
position `st` — and stores the `(return, volatility, sharpe)` triple in
`results[:, i]`. -/
noncomputable def samplePoints (draws : ℕ → List ℚ) (st : ℕ) (count : ℕ)
    (mean_returns : List ℚ) (cov_matrix : List (List ℚ)) : List PortfolioPoint :=
  (List.range count).map fun i => samplePoint (draws (st + i)) mean_returns cov_matrix

/-- Embeds `plot_efficient_frontier(mean_returns, cov_matrix, optimal_weights)`.
The source signature has no sample-count and no seed parameter: the count is
the hardcoded `num_portfolios` and the randomness is the global numpy state,
modelled as the stream `draws` with cursor `st` threaded through the call
(the cursor after the call is returned as the second component).  The first
component holds the sampled points plus the overlay data computed for the
optimal portfolio (`optimal_return`, `optimal_volatility`). -/
noncomputable def plot_efficient_frontier (draws : ℕ → List ℚ) (st : ℕ)
    (mean_returns : List ℚ) (cov_matrix : List (List ℚ))
    (optimal_weights : List ℚ) : (List PortfolioPoint × (ℚ × ℝ)) × ℕ :=
  ((samplePoints draws st num_portfolios mean_returns cov_matrix,
    (dot optimal_weights mean_returns,
      Real.sqrt ((quadForm optimal_weights cov_matrix : ℚ) : ℝ))),
    st + num_portfolios)

/-- The argument package `optimize_portfolio` hands to
`scipy.optimize.minimize`: objective, initial point, box bounds and the
single equality constraint. -/
structure OptProblem where
  objective : List ℚ → ℝ
  x0 : List ℚ
  bounds : List (ℚ × ℚ)
  constraintFun : List ℚ → ℚ

/-- The solver result fields `main` uses: `optimal.x` and `optimal.success`. -/
structure OptimizeResult where
  x : List ℚ
  success : Bool

/-- SLSQP's default accuracy (`ftol = 1e-6`), the tolerance of the claims. -/
def slsqp_tol : ℚ := 1 / 1000000

/-- The problem `optimize_portfolio` builds:
`constraints = {'type': 'eq', 'fun': lambda x: np.sum(x) - 1}`;
`bounds = tuple((0, 1) for asset in range(num_assets))`;
`initial_weights = num_assets * [1. / num_assets]`;
objective `neg_sharpe_ratio` with `risk_free_rate = 0.04`. -/
noncomputable def portfolioProblem (tickers : List String)
    (mean_returns : List ℚ) (cov_matrix : List (List ℚ)) : OptProblem :=
  { objective := fun x => neg_sharpe_ratio x mean_returns cov_matrix (4 / 100)
    x0 := List.replicate tickers.length ((1 : ℚ) / tickers.length)
    bounds := List.replicate tickers.length ((0 : ℚ), (1 : ℚ))
    constraintFun := fun x => x.sum - 1 }

/-- Embeds `optimize_portfolio(tickers, mean_returns, cov_matrix)`: builds the
constrained problem and calls `scipy.optimize.minimize(..., method='SLSQP')`.
The solver itself is external library code, abstracted as the `solve`
argument; its documented success contract is stated separately as
`FeasibleWithinTol`. -/
noncomputable def optimize_portfolio (solve : OptProblem → OptimizeResult)
    (tickers : List String) (mean_returns : List ℚ)
    (cov_matrix : List (List ℚ)) : OptimizeResult :=
  solve (portfolioProblem tickers mean_returns cov_matrix)

/-- Modelled from the spec (scipy's documented SLSQP success contract, the
solver being external library code): a successful result satisfies the
equality constraint and the box bounds within the solver tolerance. -/
def FeasibleWithinTol (prob : OptProblem) (x : List ℚ) : Prop :=
  |prob.constraintFun x| ≤ slsqp_tol ∧
  x.length = prob.bounds.length ∧
  ∀ i, i < x.length →
    (prob.bounds.getD i (0, 0)).1 - slsqp_tol ≤ x.getD i 0 ∧
    x.getD i 0 ≤ (prob.bounds.getD i (0, 0)).2 + slsqp_tol

/-- A trivial stand-in solver (returns the initial point, reporting success)
used to exhibit concrete instances of the solver-contract hypotheses. -/
def toySolve : OptProblem → OptimizeResult :=
  fun prob => { x := prob.x0, success := true }

/-- The reporting tail of `main`: after `optimize_portfolio` returns, `main`
prints `f"{ticker}: {optimal.x[i]:.4f}"` for every ticker (modelled as the
zip of tickers with weights), then `optimal_return = np.dot(optimal.x,
mean_returns)` and `optimal_volatility = portfolio_volatility(optimal.x,
mean_returns, cov_matrix)` — without ever consulting `optimal.success`. -/
noncomputable def main_report (tickers : List String) (optimal : OptimizeResult)
    (mean_returns : List ℚ) (cov_matrix : List (List ℚ)) :
    List (String × ℚ) × (ℚ × ℝ) :=
  (tickers.zip optimal.x,
    (dot optimal.x mean_returns,
      portfolio_volatility optimal.x mean_returns cov_matrix))

/-- Spec-side formula (for comparison with the source pipeline): the simple
return of column `p` at period `t`, `r[t] = p[t+1]/p[t] - 1`. -/
def specReturn (p : List ℚ) (t : ℕ) : ℚ :=
  p.getD (t + 1) 0 / p.getD t 0 - 1

/-- Spec-side formula: column-wise sample mean of the `m - 1` returns of a
price column with `m` observations. -/
def specMean (p : List ℚ) (m : ℕ) : ℚ :=
  (∑ t ∈ Finset.range (m - 1), specReturn p t) / ((m - 1 : ℕ) : ℚ)

/-- Spec-side formula: sample covariance (denominator `(m-1) - 1`) of the
return series of two price columns with `m` observations each. -/
def specCov (p q : List ℚ) (m : ℕ) : ℚ :=
  (∑ t ∈ Finset.range (m - 1),
      (specReturn p t - specMean p m) * (specReturn q t - specMean q m))
    / ((m - 2 : ℕ) : ℚ)

section Helpers

variable {α β : Type}

/-- Mapping commutes with `getD` at in-range indices. -/
theorem getD_map_of_lt (f : α → β) (l : List α) (i : ℕ) (d : β) (d' : α)
    (h : i < l.length) : (l.map f).getD i d = f (l.getD i d') := by
  induction l generalizing i with
  | nil => simp at h
  | cons x xs ih =>
    cases i with
    | zero => simp
    | succ n =>
      simp only [List.map_cons, List.getD_cons_succ]
      exact ih n (Nat.lt_of_succ_lt_succ (by simpa using h))

/-- Evaluates `getD` on `replicate` at an in-range index. -/
theorem getD_replicate_of_lt (a d : α) (n i : ℕ) (h : i < n) :
    (List.replicate n a).getD i d = a := by
  induction n generalizing i with
  | zero => exact absurd h (Nat.not_lt_zero i)
  | succ n ih =>
    cases i with
    | zero => simp [List.replicate_succ]
    | succ j =>
      simp only [List.replicate_succ, List.getD_cons_succ]
      exact ih j (Nat.lt_of_succ_lt_succ h)

/-- A list sum as an indexed `Finset` sum over `getD`. -/
theorem sum_eq_sum_getD (xs : List ℚ) :
    xs.sum = ∑ t ∈ Finset.range xs.length, xs.getD t 0 := by
  induction xs with
  | nil => simp
  | cons x l ih =>
    simp only [List.sum_cons, List.length_cons, Finset.sum_range_succ',
      List.getD_cons_succ, List.getD_cons_zero]
    rw [← ih]
    ring

/-- Expresses a `zipWith` sum as an indexed `Finset` sum over `getD`. -/
theorem sum_zipWith_eq (f : ℚ → ℚ → ℚ) (xs ys : List ℚ) :
    (List.zipWith f xs ys).sum
      = ∑ t ∈ Finset.range (min xs.length ys.length),
          f (xs.getD t 0) (ys.getD t 0) := by
  induction xs generalizing ys with
  | nil => simp
  | cons x xs ih =>
    cases ys with
    | nil => simp
    | cons y ys =>
      simp only [List.zipWith_cons_cons, List.sum_cons, List.length_cons,
        Nat.succ_min_succ, Finset.sum_range_succ', List.getD_cons_succ,
        List.getD_cons_zero]
      rw [ih]
      ring

/-- The return series of an `m`-observation column has `m - 1` entries. -/
theorem pctChange_length (p : List ℚ) : (pctChange p).length = p.length - 1 := by
  simp only [pctChange, List.length_zipWith, List.length_tail]
  omega

/-- The return series entries are the simple returns `p[t+1]/p[t] - 1`. -/
theorem pctChange_getD (p : List ℚ) (t : ℕ) (h : t + 1 < p.length) :
    (pctChange p).getD t 0 = p.getD (t + 1) 0 / p.getD t 0 - 1 := by
  induction p generalizing t with
  | nil => simp at h
  | cons x xs ih =>
    cases xs with
    | nil => simp at h
    | cons y ys =>
      cases t with
      | zero => simp [pctChange]
      | succ n =>
        have hstep : (pctChange (x :: y :: ys)).getD (n + 1) 0
            = (pctChange (y :: ys)).getD n 0 := by
          simp [pctChange]
        rw [hstep, ih n (by simpa using h)]
        simp [List.getD_cons_succ]

/-- Expresses `dot` as an indexed sum over coordinates. -/
theorem dot_eq_sum (xs ys : List ℚ) :
    dot xs ys = ∑ t ∈ Finset.range (min xs.length ys.length),
        xs.getD t 0 * ys.getD t 0 :=
  sum_zipWith_eq (· * ·) xs ys

/-- An in-range `getD` is a member of the list. -/
theorem getD_mem_of_lt (l : List α) (i : ℕ) (d : α) (h : i < l.length) :
    l.getD i d ∈ l := by
  induction l generalizing i with
  | nil => simp at h
  | cons x xs ih =>
    cases i with
    | zero => simp
    | succ n =>
      simp only [List.getD_cons_succ]
      exact List.mem_cons_of_mem x (ih n (Nat.lt_of_succ_lt_succ (by simpa using h)))

/-- Evaluates `getD` through a doubly-mapped square of a list. -/
theorem getD_map2 (f : List ℚ → List ℚ → ℚ) (l : List (List ℚ)) (i j : ℕ)
    (hi : i < l.length) (hj : j < l.length) :
    ((l.map fun a => l.map fun b => f a b).getD i []).getD j 0
      = f (l.getD i []) (l.getD j []) := by
  rw [getD_map_of_lt _ l i [] [] hi]
  exact getD_map_of_lt _ l j 0 [] hj

/-- The pandas column mean of a return series is the spec's sample mean of
the simple-return formula. -/
theorem listMean_pctChange (p : List ℚ) :
    listMean (pctChange p) = specMean p p.length := by
  unfold listMean specMean
  rw [sum_eq_sum_getD, pctChange_length]
  congr 1
  exact Finset.sum_congr rfl fun t ht => by
    have htm := Finset.mem_range.mp ht
    exact pctChange_getD p t (by omega)

/-- The pandas pairwise column covariance of two return series is the spec's
sample covariance of the simple-return formulas. -/
theorem sampleCov_pctChange (p q : List ℚ) (m : ℕ)
    (hp : p.length = m) (hq : q.length = m) :
    sampleCov (pctChange p) (pctChange q) = specCov p q m := by
  have hmp : listMean (pctChange p) = specMean p m := by
    rw [listMean_pctChange, hp]
  have hmq : listMean (pctChange q) = specMean q m := by
    rw [listMean_pctChange, hq]
  unfold sampleCov specCov
  rw [sum_zipWith_eq, pctChange_length, pctChange_length, hp, hq, min_self,
    Nat.sub_sub]
  congr 1
  exact Finset.sum_congr rfl fun t ht => by
    have htm := Finset.mem_range.mp ht
    rw [hmp, hmq, pctChange_getD p t (by rw [hp]; omega),
      pctChange_getD q t (by rw [hq]; omega)]
    rfl

/-- The mean vector entry `j` of `calculate_returns` is the annualized column
mean of the return series of price column `j`. -/
theorem calculate_returns_mean_getD (P : List (List ℚ)) (j : ℕ)
    (hj : j < P.length) :
    (calculate_returns P).1.getD j 0
      = listMean (pctChange (P.getD j [])) * 365 := by
  simp only [calculate_returns]
  rw [getD_map_of_lt _ (P.map pctChange) j 0 [] (by simpa using hj),
    getD_map_of_lt pctChange P j [] [] hj]

/-- The covariance entry `(i, j)` of `calculate_returns` is the annualized
sample covariance of the return series of price columns `i` and `j`. -/
theorem calculate_returns_cov_getD (P : List (List ℚ)) (i j : ℕ)
    (hi : i < P.length) (hj : j < P.length) :
    ((calculate_returns P).2.getD i []).getD j 0
      = sampleCov (pctChange (P.getD i [])) (pctChange (P.getD j [])) * 365 := by
  simp only [calculate_returns]
  rw [getD_map2 (fun a b => sampleCov a b * 365) (P.map pctChange) i j
    (by simpa using hi) (by simpa using hj)]
  rw [getD_map_of_lt pctChange P i [] [] hi,
    getD_map_of_lt pctChange P j [] [] hj]

/-- Shows `zipWith` of a constant list against its one-shorter tail is constant. -/
theorem zipWith_replicate_succ (f : ℚ → ℚ → ℚ) (a : ℚ) :
    ∀ k : ℕ, List.zipWith f (List.replicate (k + 1) a) (List.replicate k a)
      = List.replicate k (f a a)
  | 0 => rfl
  | k + 1 => by
    show f a a :: List.zipWith f (List.replicate (k + 1) a) (List.replicate k a)
        = f a a :: List.replicate k (f a a)
    rw [zipWith_replicate_succ f a k]

/-- The return series of a constant price column is constant. -/
theorem pctChange_replicate (n : ℕ) (a : ℚ) :
    pctChange (List.replicate n a) = List.replicate (n - 1) (a / a - 1) := by
  cases n with
  | zero => rfl
  | succ k =>
    show List.zipWith _ (List.replicate (k + 1) a) (List.replicate k a)
        = List.replicate (k + 1 - 1) (a / a - 1)
    rw [Nat.add_sub_cancel, zipWith_replicate_succ]

/-- The pandas mean of a nonempty constant column is its constant value. -/
theorem listMean_replicate (n : ℕ) (c : ℚ) (hn : n ≠ 0) :
    listMean (List.replicate n c) = c := by
  unfold listMean
  rw [List.sum_replicate, List.length_replicate, nsmul_eq_mul]
  exact mul_div_cancel_left₀ c (Nat.cast_ne_zero.mpr hn)

/-- The sample covariance of a constant series with itself is zero. -/
theorem sampleCov_self_replicate (n : ℕ) (c : ℚ) :
    sampleCov (List.replicate n c) (List.replicate n c) = 0 := by
  unfold sampleCov
  cases n with
  | zero => simp
  | succ k =>
    rw [listMean_replicate (k + 1) c (Nat.succ_ne_zero k)]
    rw [List.zipWith_replicate, min_self]
    simp

end Helpers

/-- A concrete global-RNG draw stream: the first `num_portfolios` Dirichlet
draws put all weight on asset 0, every later draw on asset 1 — two
successive sampler calls therefore consume visibly different draws. -/
def flipDraws : ℕ → List ℚ :=
  fun t => if t < num_portfolios then [1, 0] else [0, 1]

/-- C10: `portfolio_volatility` depends only on the weights and the covariance
matrix: its value is the same for any two mean-return vectors, because the
`mean_returns` parameter is accepted but never used. -/
theorem portfolio_volatility_ignores_means (w mu1 mu2 : List ℚ)
    (cov : List (List ℚ)) :
    portfolio_volatility w mu1 cov = portfolio_volatility w mu2 cov := rfl

/-- C7 counterexample: at a zero-variance covariance matrix the portfolio
volatility is exactly 0, yet `neg_sharpe_ratio` still returns a value (under
the real-field division-by-zero convention, 0) — no `ZeroVolatilityError`
exists and the division is performed unguarded. -/
theorem zero_volatility_no_error_counterexample :
    portfolio_volatility [1] [1] [[0]] = 0
    ∧ neg_sharpe_ratio [1] [1] [[0]] (1 / 25) = 0 := by
  constructor
  · norm_num [portfolio_volatility, quadForm, dot, matVec]
  · norm_num [neg_sharpe_ratio, quadForm, dot, matVec]

/-- C7 (amended): `neg_sharpe_ratio` does not guard the division against a
zero denominator: whenever the portfolio volatility is zero it performs the
division anyway and returns a (degenerate) value — 0 under the model's
division-by-zero convention, ±inf/NaN in IEEE arithmetic. -/
theorem neg_sharpe_zero_vol_division (w mu : List ℚ) (cov : List (List ℚ))
    (rf : ℚ) (h : portfolio_volatility w mu cov = 0) :
    neg_sharpe_ratio w mu cov rf = 0 := by
  unfold portfolio_volatility at h
  unfold neg_sharpe_ratio
  rw [h, div_zero, neg_zero]

/-- C7 witness: the zero-volatility hypothesis is satisfiable (single asset
with zero variance) and there the objective evaluates to 0. -/
theorem neg_sharpe_zero_vol_division_witness :
    neg_sharpe_ratio [1] [2] [[0]] 0 = 0 :=
  neg_sharpe_zero_vol_division [1] [2] [[0]] 0
    (by norm_num [portfolio_volatility, quadForm, dot, matVec])

/-- C4 counterexample: the frontier sampler's stored Sharpe ratio divides the
raw expected return by the volatility, without subtracting the risk-free rate
0.04 that the optimizer's objective uses: at weights `[1]`, mean `[5]`,
covariance `[[4]]` the stored value is 5/2 while the claimed formula gives
(5 − 0.04)/2. -/
theorem sampler_sharpe_counterexample :
    (samplePoint [1] [5] [[4]]).sharpe
      ≠ (((samplePoint [1] [5] [[4]]).expectedReturn : ℚ) - (default_risk_free_rate : ℚ) : ℝ)
        / (samplePoint [1] [5] [[4]]).volatility := by
  have hq : ((quadForm [1] [[4]] : ℚ) : ℝ) = 4 := by
    norm_num [quadForm, dot, matVec]
  have hs : Real.sqrt ((quadForm [1] [[4]] : ℚ) : ℝ) = 2 := by
    rw [hq, show (4 : ℝ) = 2 ^ 2 by norm_num,
      Real.sqrt_sq (by norm_num : (0 : ℝ) ≤ 2)]
  simp only [samplePoint, hs]
  norm_num [dot, default_risk_free_rate]

/-- C4 (amended): every `PortfolioPoint` the sampler produces carries
`sharpeRatio = expectedReturn / volatility`, i.e. the risk-adjusted measure
with the risk-free rate taken as 0 — it equals the negation of the
optimizer's objective only at risk-free rate 0, not at the 0.04 the
optimizer actually uses. -/
theorem sampler_sharpe_zero_riskfree (w mu : List ℚ) (cov : List (List ℚ)) :
    (samplePoint w mu cov).sharpe
        = ((samplePoint w mu cov).expectedReturn : ℝ)
            / (samplePoint w mu cov).volatility
    ∧ (samplePoint w mu cov).sharpe = -(neg_sharpe_ratio w mu cov 0) := by
  refine ⟨rfl, ?_⟩
  simp [samplePoint, neg_sharpe_ratio]

/-- C2: for every rectangular price table (one `m`-observation column per
asset), `calculate_returns` computes the per-period simple returns
`r[t] = p[t]/p[t-1] - 1`, drops the first (undefined) period, takes the
column-wise sample mean and the sample covariance of the return matrix, and
scales both the mean vector and the covariance matrix by the same
annualization constant 365. -/
theorem calculate_returns_annualized_spec (P : List (List ℚ)) (m : ℕ)
    (hrect : ∀ col ∈ P, col.length = m) :
    (∀ j, j < P.length →
        (calculate_returns P).1.getD j 0 = specMean (P.getD j []) m * 365)
    ∧ (∀ i j, i < P.length → j < P.length →
        ((calculate_returns P).2.getD i []).getD j 0
          = specCov (P.getD i []) (P.getD j []) m * 365) := by
  constructor
  · intro j hj
    rw [calculate_returns_mean_getD P j hj, listMean_pctChange,
      hrect _ (getD_mem_of_lt P j [] hj)]
  · intro i j hi hj
    rw [calculate_returns_cov_getD P i j hi hj,
      sampleCov_pctChange _ _ m (hrect _ (getD_mem_of_lt P i [] hi))
        (hrect _ (getD_mem_of_lt P j [] hj))]

/-- C2 witness: the rectangularity hypothesis holds for a concrete one-asset
table with three observations, and the annualized formulas follow. -/
theorem calculate_returns_annualized_spec_witness :
    (∀ j, j < ([[1, 2, 6]] : List (List ℚ)).length →
        (calculate_returns [[1, 2, 6]]).1.getD j 0
          = specMean (([[1, 2, 6]] : List (List ℚ)).getD j []) 3 * 365)
    ∧ (∀ i j, i < ([[1, 2, 6]] : List (List ℚ)).length →
        j < ([[1, 2, 6]] : List (List ℚ)).length →
        ((calculate_returns [[1, 2, 6]]).2.getD i []).getD j 0
          = specCov (([[1, 2, 6]] : List (List ℚ)).getD i [])
              (([[1, 2, 6]] : List (List ℚ)).getD j []) 3 * 365) :=
  calculate_returns_annualized_spec [[1, 2, 6]] 3
    (by intro col hc; rw [List.mem_singleton] at hc; rw [hc]; rfl)

/-- C5 counterexample: on a table whose first asset has constant price,
`calculate_returns` raises nothing: it returns a concrete mean vector and a
covariance matrix whose first row and column are zero — a singular matrix
silently handed onward. -/
theorem constant_price_no_error_counterexample :
    calculate_returns [[1, 1, 1], [1, 2, 6]]
      = ([0, 1095 / 2], [[0, 0], [0, 365 / 2]]) := by
  norm_num [calculate_returns, pctChange, listMean, sampleCov]

/-- C5 (amended): `calculate_returns` performs no positive-definiteness
check: a constant-price asset column yields a covariance matrix whose
diagonal entry for that asset is 0 (hence a singular matrix), which is
returned unchanged and reaches the solver; no `NonPositiveDefiniteError`
exists in the code. -/
theorem constant_column_zero_variance_passed (P : List (List ℚ)) (j m : ℕ)
    (a : ℚ) (hj : j < P.length) (hcol : P.getD j [] = List.replicate m a) :
    ((calculate_returns P).2.getD j []).getD j 0 = 0 := by
  rw [calculate_returns_cov_getD P j j hj hj, hcol, pctChange_replicate,
    sampleCov_self_replicate, zero_mul]

/-- C5 witness: the hypotheses hold at the concrete constant-price table and
the corresponding covariance diagonal entry is zero. -/
theorem constant_column_zero_variance_passed_witness :
    ((calculate_returns [[1, 1, 1], [1, 2, 6]]).2.getD 0 []).getD 0 0 = 0 :=
  constant_column_zero_variance_passed [[1, 1, 1], [1, 2, 6]] 0 3 1
    (by decide) rfl

/-- C6 counterexample: on a table with a single aligned price observation per
asset, `calculate_returns` does not fail: it returns a full-size mean vector
and covariance matrix (zero-valued under this model's conventions; NaN-valued
in pandas) instead of raising `InsufficientDataError`. -/
theorem insufficient_data_no_error_counterexample :
    calculate_returns [[5], [7]] = ([0, 0], [[0, 0], [0, 0]]) := by
  norm_num [calculate_returns, pctChange, listMean, sampleCov]

/-- C6 (amended): `calculate_returns` performs no data-sufficiency check:
for any table it returns a mean vector and covariance matrix with one entry
(row) per asset, and an asset with fewer than 2 observations simply
contributes an empty return series whose degenerate mean (NaN in pandas, 0
here) is returned rather than an error. -/
theorem calculate_returns_short_data (P : List (List ℚ)) (j : ℕ)
    (hj : j < P.length) (hshort : (P.getD j []).length < 2) :
    (calculate_returns P).1.length = P.length
    ∧ (calculate_returns P).2.length = P.length
    ∧ (calculate_returns P).1.getD j 0 = 0 := by
  refine ⟨by simp [calculate_returns], by simp [calculate_returns], ?_⟩
  rw [calculate_returns_mean_getD P j hj]
  have hnil : pctChange (P.getD j []) = [] := by
    have hlen : (pctChange (P.getD j [])).length = 0 := by
      rw [pctChange_length]; omega
    exact List.length_eq_zero.mp hlen
  rw [hnil]
  simp [listMean]

/-- C6 witness: the short-data hypotheses hold at a concrete two-asset table
with one observation each, and the degenerate outputs are produced. -/
theorem calculate_returns_short_data_witness :
    (calculate_returns [[5], [7]]).1.length = ([[5], [7]] : List (List ℚ)).length
    ∧ (calculate_returns [[5], [7]]).2.length = ([[5], [7]] : List (List ℚ)).length
    ∧ (calculate_returns [[5], [7]]).1.getD 0 0 = 0 :=
  calculate_returns_short_data [[5], [7]] 0 (by decide) (by decide)

/-- The sampler produces exactly `count` points. -/
theorem samplePoints_length (draws : ℕ → List ℚ) (st count : ℕ)
    (mu : List ℚ) (cov : List (List ℚ)) :
    (samplePoints draws st count mu cov).length = count := by
  simp [samplePoints]

/-- The first sampled point is evaluated at the draw at the current cursor. -/
theorem samplePoints_head (draws : ℕ → List ℚ) (st count : ℕ)
    (mu : List ℚ) (cov : List (List ℚ)) (h : 0 < count) :
    (samplePoints draws st count mu cov).head?
      = some (samplePoint (draws st) mu cov) := by
  cases count with
  | zero => exact absurd h (Nat.lt_irrefl 0)
  | succ k =>
    simp [samplePoints, List.range_succ_eq_map, List.head?_map]

/-- C9 counterexample: `plot_efficient_frontier` has no seed or sample-count
parameter; its draws come from the implicit global RNG state (modelled as a
cursor into a draw stream).  Two successive calls with identical
(mean-return, covariance, optimal-weight) inputs — the second starting at
the cursor the first call left behind — produce different point sets, so the
claimed call-to-call reproducibility fails. -/
theorem sampler_not_reproducible_counterexample :
    (plot_efficient_frontier flipDraws 0 [1, 0] [[0, 0], [0, 0]] [1, 0]).1.1
      ≠ (plot_efficient_frontier flipDraws
          ((plot_efficient_frontier flipDraws 0 [1, 0] [[0, 0], [0, 0]] [1, 0]).2)
          [1, 0] [[0, 0], [0, 0]] [1, 0]).1.1 := by
  have hpos : 0 < num_portfolios := by norm_num [num_portfolios]
  have h0 : flipDraws 0 = [1, 0] := by norm_num [flipDraws, num_portfolios]
  have hN : flipDraws (0 + num_portfolios) = [0, 1] := by
    norm_num [flipDraws, num_portfolios]
  have e1 : (plot_efficient_frontier flipDraws 0 [1, 0] [[0, 0], [0, 0]] [1, 0]).1.1.head?
      = some (samplePoint [1, 0] [1, 0] [[0, 0], [0, 0]]) := by
    simp only [plot_efficient_frontier]
    rw [samplePoints_head _ _ _ _ _ hpos, h0]
  have e2 : (plot_efficient_frontier flipDraws
        ((plot_efficient_frontier flipDraws 0 [1, 0] [[0, 0], [0, 0]] [1, 0]).2)
        [1, 0] [[0, 0], [0, 0]] [1, 0]).1.1.head?
      = some (samplePoint [0, 1] [1, 0] [[0, 0], [0, 0]]) := by
    simp only [plot_efficient_frontier]
    rw [samplePoints_head _ _ _ _ _ hpos, hN]
  intro heq
  have hsome : some (samplePoint [1, 0] [1, 0] [[0, 0], [0, 0]])
      = some (samplePoint [0, 1] [1, 0] [[0, 0], [0, 0]]) := by
    rw [← e1, ← e2, heq]
  have hpt := Option.some.inj hsome
  have hret := congrArg PortfolioPoint.expectedReturn hpt
  norm_num [samplePoint, dot] at hret

/-- C9 (amended): the sampler's sample count is the hardcoded constant
10,000 (not a parameter), and its output is a deterministic function of the
global RNG draw stream and cursor it consumes, whose cursor it advances by
10,000 — reproducibility holds only relative to that implicit global state,
which the source signature neither takes nor re-seeds. -/
theorem sampler_hardcoded_count_global_state (draws : ℕ → List ℚ) (st : ℕ)
    (mean_returns : List ℚ) (cov_matrix : List (List ℚ)) (w : List ℚ) :
    (plot_efficient_frontier draws st mean_returns cov_matrix w).1.1.length
        = num_portfolios
    ∧ (plot_efficient_frontier draws st mean_returns cov_matrix w).2
        = st + num_portfolios
    ∧ (plot_efficient_frontier draws st mean_returns cov_matrix w).1.1
        = (List.range num_portfolios).map
            (fun i => samplePoint (draws (st + i)) mean_returns cov_matrix) := by
  refine ⟨?_, ?_, ?_⟩
  · simp only [plot_efficient_frontier]
    exact samplePoints_length draws st num_portfolios mean_returns cov_matrix
  · simp only [plot_efficient_frontier]
  · simp only [plot_efficient_frontier, samplePoints]

/-- C8 counterexample: with a failed solver result (`success = false`) the
reporting tail of `main` still produces the full per-ticker weight printout
and the summary numbers — the weight vector is printed despite the failed
run. -/
theorem failed_run_still_reports_counterexample :
    (main_report ["A", "B"] ⟨[1 / 2, 1 / 2], false⟩ [0, 0] [[0, 0], [0, 0]]).1
        = [("A", 1 / 2), ("B", 1 / 2)]
    ∧ (⟨[1 / 2, 1 / 2], false⟩ : OptimizeResult).success = false :=
  ⟨rfl, rfl⟩

/-- C8 (amended): `main` never consults `optimal.success`: the printed
report is the same function of the returned weights whether or not the
solver converged, so a non-converged run still prints the weight vector and
proceeds to the plots; only a raised exception (which never reaches the
reporting code) aborts the pipeline. -/
theorem main_report_ignores_success (tickers : List String) (x : List ℚ)
    (b1 b2 : Bool) (mean_returns : List ℚ) (cov_matrix : List (List ℚ)) :
    main_report tickers ⟨x, b1⟩ mean_returns cov_matrix
        = main_report tickers ⟨x, b2⟩ mean_returns cov_matrix
    ∧ (main_report tickers ⟨x, b1⟩ mean_returns cov_matrix).1 = tickers.zip x :=
  ⟨rfl, rfl⟩

/-- The quadratic form `wᵀΣw` of the embedding as an explicit double sum
over coordinates (for a square matrix of matching dimensions). -/
theorem quadForm_eq_sum (w : List ℚ) (M : List (List ℚ))
    (hM : M.length = w.length) (hrows : ∀ row ∈ M, row.length = w.length) :
    quadForm w M = ∑ i ∈ Finset.range w.length, ∑ j ∈ Finset.range w.length,
        w.getD i 0 * ((M.getD i []).getD j 0 * w.getD j 0) := by
  unfold quadForm matVec
  rw [dot_eq_sum]
  have hlen : min w.length (M.map fun row => dot row w).length = w.length := by
    simp [hM]
  rw [hlen]
  refine Finset.sum_congr rfl fun i hi => ?_
  have hin := Finset.mem_range.mp hi
  have hiM : i < M.length := by omega
  simp only [getD_map_of_lt (fun row => dot row w) M i 0 [] hiM]
  rw [dot_eq_sum]
  have hrow : (M.getD i []).length = w.length :=
    hrows _ (getD_mem_of_lt M i [] hiM)
  rw [hrow, min_self, Finset.mul_sum]

/-- C3: for dimension-matching inputs, `neg_sharpe_ratio` returns
`-(w·μ - riskFreeRate) / sqrt(wᵀΣw)` with the dot product and quadratic form
spelled out as coordinate sums, the source's default risk-free rate is 0.04,
and `portfolio_volatility` returns `sqrt(wᵀΣw)`, which is ≥ 0 (in particular
whenever Σ is positive semi-definite). -/
theorem objective_function_formulas (w mu : List ℚ) (cov : List (List ℚ))
    (rf : ℚ) (hmu : mu.length = w.length) (hcov : cov.length = w.length)
    (hrows : ∀ row ∈ cov, row.length = w.length) :
    neg_sharpe_ratio w mu cov rf
      = -((((∑ i ∈ Finset.range w.length, w.getD i 0 * mu.getD i 0 : ℚ) : ℝ)
            - ((rf : ℚ) : ℝ))
          / Real.sqrt ((( ∑ i ∈ Finset.range w.length, ∑ j ∈ Finset.range w.length,
              w.getD i 0 * ((cov.getD i []).getD j 0 * w.getD j 0) : ℚ) : ℝ)))
    ∧ default_risk_free_rate = 4 / 100
    ∧ portfolio_volatility w mu cov
        = Real.sqrt ((( ∑ i ∈ Finset.range w.length, ∑ j ∈ Finset.range w.length,
            w.getD i 0 * ((cov.getD i []).getD j 0 * w.getD j 0) : ℚ) : ℝ))
    ∧ (IsPSD cov → 0 ≤ portfolio_volatility w mu cov) := by
  have hq := quadForm_eq_sum w cov hcov hrows
  have hd : dot w mu = ∑ i ∈ Finset.range w.length, w.getD i 0 * mu.getD i 0 := by
    rw [dot_eq_sum, hmu, min_self]
  refine ⟨?_, rfl, ?_, fun _ => Real.sqrt_nonneg _⟩
  · unfold neg_sharpe_ratio
    rw [hd, hq]
  · unfold portfolio_volatility
    rw [hq]

/-- C3 witness: the dimension hypotheses hold at a concrete single-asset
input, where the formulas and the nonnegativity conclusion follow. -/
theorem objective_function_formulas_witness :
    neg_sharpe_ratio [1] [2] [[0]] 0
      = -((((∑ i ∈ Finset.range ([1] : List ℚ).length,
              ([1] : List ℚ).getD i 0 * ([2] : List ℚ).getD i 0 : ℚ) : ℝ)
            - ((0 : ℚ) : ℝ))
          / Real.sqrt ((( ∑ i ∈ Finset.range ([1] : List ℚ).length,
              ∑ j ∈ Finset.range ([1] : List ℚ).length,
              ([1] : List ℚ).getD i 0
                * ((([[0]] : List (List ℚ)).getD i []).getD j 0
                    * ([1] : List ℚ).getD j 0) : ℚ) : ℝ)))
    ∧ default_risk_free_rate = 4 / 100
    ∧ portfolio_volatility [1] [2] [[0]]
        = Real.sqrt ((( ∑ i ∈ Finset.range ([1] : List ℚ).length,
            ∑ j ∈ Finset.range ([1] : List ℚ).length,
            ([1] : List ℚ).getD i 0
              * ((([[0]] : List (List ℚ)).getD i []).getD j 0
                  * ([1] : List ℚ).getD j 0) : ℚ) : ℝ))
    ∧ (IsPSD [[0]] → 0 ≤ portfolio_volatility [1] [2] [[0]]) :=
  objective_function_formulas [1] [2] [[0]] 0 rfl rfl
    (by intro row hr; rw [List.mem_singleton] at hr; rw [hr]; rfl)

/-- C1: whenever the solver call inside `optimize_portfolio` reports
convergence and its result honors SLSQP's documented success contract
(`FeasibleWithinTol`) for the problem `optimize_portfolio` constructs — the
single equality constraint `sum(x) - 1 = 0` and per-asset box bounds
`(0, 1)` — the returned weight vector sums to 1 within 1e-6 and every
component lies within `[0 - 1e-6, 1 + 1e-6]`, so the caller need not
re-normalize. -/
theorem optimize_portfolio_weights_normalized (solve : OptProblem → OptimizeResult)
    (tickers : List String) (mean_returns : List ℚ) (cov_matrix : List (List ℚ))
    (hconv : (optimize_portfolio solve tickers mean_returns cov_matrix).success = true)
    (hcontract : (optimize_portfolio solve tickers mean_returns cov_matrix).success = true →
      FeasibleWithinTol (portfolioProblem tickers mean_returns cov_matrix)
        (optimize_portfolio solve tickers mean_returns cov_matrix).x) :
    |(optimize_portfolio solve tickers mean_returns cov_matrix).x.sum - 1| ≤ 1 / 1000000
    ∧ ∀ i, i < (optimize_portfolio solve tickers mean_returns cov_matrix).x.length →
        0 - 1 / 1000000
            ≤ (optimize_portfolio solve tickers mean_returns cov_matrix).x.getD i 0
        ∧ (optimize_portfolio solve tickers mean_returns cov_matrix).x.getD i 0
            ≤ 1 + 1 / 1000000 := by
  obtain ⟨h1, hlen, hbnd⟩ := hcontract hconv
  refine ⟨h1, fun i hi => ?_⟩
  have hib : i < tickers.length := by
    rw [hlen] at hi
    simpa [portfolioProblem] using hi
  have hb := hbnd i hi
  have hbds : (portfolioProblem tickers mean_returns cov_matrix).bounds.getD i (0, 0)
      = ((0 : ℚ), (1 : ℚ)) := by
    show (List.replicate tickers.length ((0 : ℚ), (1 : ℚ))).getD i (0, 0) = _
    exact getD_replicate_of_lt _ _ _ _ hib
  rw [hbds] at hb
  exact hb

/-- C1 witness: with a stand-in solver returning the feasible uniform start
on a one-asset universe, the convergence and contract hypotheses hold and
the returned weights satisfy the normalization bounds. -/
theorem optimize_portfolio_weights_normalized_witness :
    |(optimize_portfolio toySolve ["A"] [0] [[0]]).x.sum - 1| ≤ 1 / 1000000
    ∧ ∀ i, i < (optimize_portfolio toySolve ["A"] [0] [[0]]).x.length →
        0 - 1 / 1000000 ≤ (optimize_portfolio toySolve ["A"] [0] [[0]]).x.getD i 0
        ∧ (optimize_portfolio toySolve ["A"] [0] [[0]]).x.getD i 0 ≤ 1 + 1 / 1000000 := by
  refine optimize_portfolio_weights_normalized toySolve ["A"] [0] [[0]] rfl
    (fun _ => ⟨?_, rfl, ?_⟩)
  · show |(List.replicate 1 ((1 : ℚ) / ((1 : ℕ) : ℚ))).sum - 1| ≤ slsqp_tol
    norm_num [slsqp_tol]
  · intro i hi
    have hi0 : i = 0 := by
      have : i < 1 := by simpa [optimize_portfolio, toySolve, portfolioProblem] using hi
      omega
    subst hi0
    show ((0 : ℚ), (1 : ℚ)).1 - slsqp_tol
          ≤ (List.replicate 1 ((1 : ℚ) / ((1 : ℕ) : ℚ))).getD 0 0
        ∧ (List.replicate 1 ((1 : ℚ) / ((1 : ℕ) : ℚ))).getD 0 0
          ≤ ((0 : ℚ), (1 : ℚ)).2 + slsqp_tol
    norm_num [slsqp_tol]

end Markowitz
